import Mathlib

/-
Formal verification of the FootyValue analysis core (src/server.ts).

The core consists of:
  * `poisson` — Knuth-style Poisson sampler (src/server.ts lines 59-68);
  * `simulateMatch` — Monte Carlo simulator of the compound market
    (lines 71-112);
  * the per-match analysis of the GET /api/analysis handler: two
    simulator runs, one per designated-team side, selection of the
    better side, synthetic odds/edge/EV derivation, and the
    positive-EV filter with truncation at 50 (lines 181-224).

Embedding choices:
  * JavaScript numbers are embedded as ℚ (the spec reasons in exact
    real arithmetic; all constants in the source are decimal literals).
  * `Math.exp(-x)` is an abstract parameter `expNeg : ℚ → ℚ`; the only
    facts the code relies on are `expNeg 0 = 1` and `0 ≤ expNeg x`,
    which hold of the JavaScript double implementation.
  * `Math.random()` is embedded as an explicit list of draws in [0,1)
    threaded through every sampler call; each call consumes the draws
    it uses and returns the remainder.  A call returns `none` when the
    finite draw list is exhausted (the source draws from an infinite
    stream, so `none` never corresponds to a source behaviour).
-/

/-- The sampling loop of `poisson` (the do-while at src/server.ts
lines 63-66): multiply the accumulator `p` by the next uniform draw,
increment `k`, and stop as soon as `p` is no longer above the
threshold `L`, returning `k - 1` and the unconsumed draws. -/
def poissonAux (L : ℚ) : ℚ → ℕ → List ℚ → Option (ℕ × List ℚ)
  | _, _, [] => none
  | p, k, u :: us =>
    let p2 := p * u
    let k2 := k + 1
    if L < p2 then poissonAux L p2 k2 us else some (k2 - 1, us)

/-- `poisson(lambda)` from src/server.ts lines 59-68: the Knuth method
with threshold `L = Math.exp(-lambda)`, accumulator starting at 1 and
counter starting at 0. -/
def poisson (expNeg : ℚ → ℚ) (lambda : ℚ) (draws : List ℚ) :
    Option (ℕ × List ℚ) :=
  poissonAux (expNeg lambda) 1 0 draws

/-- The default iteration count of `simulateMatch`
(src/server.ts line 77). -/
def defaultIterations : ℕ := 20000

/-- One iteration of the Monte Carlo loop of `simulateMatch`
(src/server.ts lines 82-108): four Poisson goal draws with the
half-split rates, two Poisson corner draws, and the four boolean
sub-conditions of the compound market, returning whether the iteration
is a success together with the unconsumed draws. -/
def runIteration (expNeg : ℚ → ℚ)
    (homeExpG awayExpG homeExpC awayExpC : ℚ) (isTeamYHome : Bool)
    (draws : List ℚ) : Option (Bool × List ℚ) :=
  (poisson expNeg (homeExpG * 0.45) draws).bind fun (h1_home, d1) =>
  (poisson expNeg (awayExpG * 0.45) d1).bind fun (h1_away, d2) =>
  (poisson expNeg (homeExpG * 0.55) d2).bind fun (h2_home, d3) =>
  (poisson expNeg (awayExpG * 0.55) d3).bind fun (h2_away, d4) =>
  (poisson expNeg homeExpC d4).bind fun (c_home, d5) =>
  (poisson expNeg awayExpC d5).bind fun (c_away, d6) =>
  let corners := c_home + c_away
  let u35_h1 := decide (((h1_home + h1_away : ℕ) : ℚ) < 3.5)
  let u35_h2 := decide (((h2_home + h2_away : ℕ) : ℚ) < 3.5)
  let teamYWinsHalf :=
    if isTeamYHome then
      decide (h1_away < h1_home) || decide (h2_away < h2_home)
    else
      decide (h1_home < h1_away) || decide (h2_home < h2_away)
  let o55_corners := decide (((corners : ℕ) : ℚ) > 5.5)
  some (u35_h1 && u35_h2 && teamYWinsHalf && o55_corners, d6)

/-- The iteration loop of `simulateMatch` (src/server.ts lines 79-109),
threading the success counter. -/
def simulateLoop (expNeg : ℚ → ℚ)
    (homeExpG awayExpG homeExpC awayExpC : ℚ) (isTeamYHome : Bool) :
    ℕ → ℕ → List ℚ → Option (ℕ × List ℚ)
  | 0, successCount, draws => some (successCount, draws)
  | n + 1, successCount, draws =>
    (runIteration expNeg homeExpG awayExpG homeExpC awayExpC isTeamYHome
        draws).bind fun (success, d) =>
      simulateLoop expNeg homeExpG awayExpG homeExpC awayExpC isTeamYHome n
        (if success then successCount + 1 else successCount) d

/-- `simulateMatch` (src/server.ts lines 71-112): run the loop for the
given number of iterations starting from a zero success counter and
return `successCount / iterations`. -/
def simulateMatch (expNeg : ℚ → ℚ)
    (homeExpG awayExpG homeExpC awayExpC : ℚ) (isTeamYHome : Bool)
    (iterations : ℕ) (draws : List ℚ) : Option (ℚ × List ℚ) :=
  (simulateLoop expNeg homeExpG awayExpG homeExpC awayExpC isTeamYHome
      iterations 0 draws).map
    fun (successCount, d) => ((successCount : ℚ) / (iterations : ℚ), d)

/-- The outcome of the half-goal and corner draws of one iteration, as
the claim describes them. -/
structure IterationSample where
  h1Home : ℕ
  h1Away : ℕ
  h2Home : ℕ
  h2Away : ℕ
  cornersHome : ℕ
  cornersAway : ℕ
deriving DecidableEq

/-- Modelled from the claim wording: one iteration performs four
independent Poisson draws of half goals, using first-half rate 0.45
times and second-half rate 0.55 times the full-match expected goals of each side, and two independent Poisson corner draws at the full-match expected corners of each side. -/
def sampleIteration (expNeg : ℚ → ℚ)
    (homeExpG awayExpG homeExpC awayExpC : ℚ) (draws : List ℚ) :
    Option (IterationSample × List ℚ) :=
  (poisson expNeg (0.45 * homeExpG) draws).bind fun (a, d1) =>
  (poisson expNeg (0.45 * awayExpG) d1).bind fun (b, d2) =>
  (poisson expNeg (0.55 * homeExpG) d2).bind fun (e, d3) =>
  (poisson expNeg (0.55 * awayExpG) d3).bind fun (f, d4) =>
  (poisson expNeg homeExpC d4).bind fun (g, d5) =>
  (poisson expNeg awayExpC d5).bind fun (i, d6) =>
  some (⟨a, b, e, f, g, i⟩, d6)

/-- Modelled from the claim wording: an iteration is a success iff
half-1 combined goals are under 3.5 (strict), half-2 combined goals
are under 3.5 (strict), the designated team strictly exceeds the
opponent in half 1 or half 2 (mirrored when the designated team is
away), and the corner total is over 5.5 (strict). -/
def specSuccess (s : IterationSample) (isTeamYHome : Bool) : Bool :=
  decide (((s.h1Home + s.h1Away : ℕ) : ℚ) < 3.5) &&
  decide (((s.h2Home + s.h2Away : ℕ) : ℚ) < 3.5) &&
  (if isTeamYHome then
    decide (s.h1Away < s.h1Home) || decide (s.h2Away < s.h2Home)
   else
    decide (s.h1Home < s.h1Away) || decide (s.h2Home < s.h2Away)) &&
  decide (((s.cornersHome + s.cornersAway : ℕ) : ℚ) > 5.5)

/-- The list of per-iteration samples drawn over a run. -/
def specOutcomes (expNeg : ℚ → ℚ)
    (homeExpG awayExpG homeExpC awayExpC : ℚ) :
    ℕ → List ℚ → Option (List IterationSample × List ℚ)
  | 0, draws => some ([], draws)
  | n + 1, draws =>
    (sampleIteration expNeg homeExpG awayExpG homeExpC awayExpC
        draws).bind fun (s, d) =>
      (specOutcomes expNeg homeExpG awayExpG homeExpC awayExpC n d).map
        fun (l, d2) => (s :: l, d2)

/-- Modelled from the claim wording: run the stated iteration sampling
for the requested number of iterations, count the successes, and
return successCount / iterations. -/
def simulateSpecFn (expNeg : ℚ → ℚ)
    (homeExpG awayExpG homeExpC awayExpC : ℚ) (isTeamYHome : Bool)
    (iterations : ℕ) (draws : List ℚ) : Option (ℚ × List ℚ) :=
  (specOutcomes expNeg homeExpG awayExpG homeExpC awayExpC iterations
      draws).map
    fun (l, d) =>
      (((l.countP fun s => specSuccess s isTeamYHome : ℕ) : ℚ) /
        (iterations : ℚ), d)

/-- The per-match analysis record built by the GET /api/analysis
handler (src/server.ts lines 206-220), restricted to its numeric and
boolean fields; id, team names, league and date are passed through
unchanged from the database row and carry no computation. -/
structure Assessment where
  probModel : ℚ
  oddAvg : ℚ
  bestOdd : ℚ
  probImplied : ℚ
  edge : ℚ
  ev : ℚ
  confidenceHigh : Bool
  isTeamYHome : Bool
deriving DecidableEq

/-- The synthetic odds and value derivation of the handler
(src/server.ts lines 199-218): oddAvg = 1 / (probModel * 0.8) (a 20%
margin), bestOdd = oddAvg * 1.1, probImplied = 1 / bestOdd,
edge = probModel - probImplied, ev = probModel * bestOdd - 1, and
confidence "High" exactly when probModel > 0.15. -/
def deriveValue (probModel : ℚ) (isTeamYHome : Bool) : Assessment :=
  let oddAvg := 1 / (probModel * 0.8)
  let bestOdd := oddAvg * 1.1
  let probImplied := 1 / bestOdd
  let edge := probModel - probImplied
  let ev := probModel * bestOdd - 1
  ⟨probModel, oddAvg, bestOdd, probImplied, edge, ev,
    decide (probModel > 0.15), isTeamYHome⟩

/-- The per-match body of `matches.map` in the handler (src/server.ts
lines 190-220), for given expected rates: simulate once with the home
side designated, once with the away side designated on the remaining
draws, pick the better side (`probHomeY >= probAwayY`, ties to home),
and derive the value fields from the winning probability. -/
def analyzeMatch (expNeg : ℚ → ℚ)
    (homeExpG awayExpG homeExpC awayExpC : ℚ) (draws : List ℚ) :
    Option Assessment :=
  (simulateMatch expNeg homeExpG awayExpG homeExpC awayExpC true
      defaultIterations draws).bind fun (probHomeY, d1) =>
  (simulateMatch expNeg homeExpG awayExpG homeExpC awayExpC false
      defaultIterations d1).bind fun (probAwayY, _) =>
  let isHomeBetter := decide (probHomeY ≥ probAwayY)
  let probModel := if isHomeBetter then probHomeY else probAwayY
  some (deriveValue probModel isHomeBetter)

/-- The ranking/filtering step of the handler (src/server.ts line 224):
`analyzedMatches.filter(m => m.ev > 0).slice(0, 50)`. -/
def rankFilter (l : List Assessment) : List Assessment :=
  (l.filter fun m => decide (m.ev > 0)).take 50

/-- Each loop step consumes exactly one draw and performs exactly one
multiplication, so a run returning `n` consumed `n + 1 - k₀` draws when
started at counter `k₀`. -/
theorem poissonAux_length (L : ℚ) :
    ∀ (p : ℚ) (k : ℕ) (draws : List ℚ) (n : ℕ) (rest : List ℚ),
      poissonAux L p k draws = some (n, rest) →
      draws.length + k = n + 1 + rest.length := by
  intro p k draws
  induction draws generalizing p k with
  | nil => intro n rest h; simp [poissonAux] at h
  | cons u us ih =>
    intro n rest h
    simp only [poissonAux] at h
    by_cases hc : L < p * u
    · simp only [hc, if_pos] at h
      have := ih (p * u) (k + 1) n rest h
      simp only [List.length_cons]
      omega
    · simp only [hc, if_neg, not_false_iff] at h
      obtain ⟨h1, h2⟩ := Option.some.injEq _ _ ▸ h
      cases h
      simp only [List.length_cons]
      omega

/-- A draw of value 0 sends the accumulator to 0, which is never above
a non-negative threshold, so the sampler stops at once and returns 0. -/
theorem poisson_zero_draw (expNeg : ℚ → ℚ) (lambda : ℚ)
    (h : 0 ≤ expNeg lambda) (us : List ℚ) :
    poisson expNeg lambda ((0 : ℚ) :: us) = some (0, us) := by
  simp only [poisson, poissonAux, one_mul]
  have : ¬ expNeg lambda < 0 := not_lt.2 h
  simp [this]

/-- Claim C5: for every rate λ ≥ 0 and every sequence of uniform draws
in [0,1), the Poisson sampler returns a non-negative integer equal to
the number of uniform multiplications minus 1 (the value returned is a
natural number, and a run returning `n` consumed exactly `n + 1`
draws, one multiplication per draw); and for λ = 0 — where the
threshold is `expNeg 0 = 1` — it returns 0 on every call,
deterministically, whatever the first draw u ∈ [0,1) is. -/
theorem c5_poisson_count (expNeg : ℚ → ℚ) :
    (∀ (lambda : ℚ) (draws : List ℚ) (n : ℕ) (rest : List ℚ),
      poisson expNeg lambda draws = some (n, rest) →
      draws.length = n + 1 + rest.length) ∧
    (expNeg 0 = 1 →
      ∀ (u : ℚ) (us : List ℚ), 0 ≤ u → u < 1 →
        poisson expNeg 0 (u :: us) = some (0, us)) := by
  constructor
  · intro lambda draws n rest h
    have := poissonAux_length (expNeg lambda) 1 0 draws n rest h
    omega
  · intro h0 u us _ hu1
    simp only [poisson, poissonAux, one_mul, h0]
    have : ¬ (1 : ℚ) < u := not_lt.2 (le_of_lt hu1)
    simp [this]

/-- Concrete instance of C5: with threshold function constantly 1
(which is what `expNeg` gives at λ = 0), a two-draw list of halves is
consumed one draw deep, returning 0; and the λ = 0 call on the draw
1/2 returns 0. -/
theorem c5_poisson_count_witness :
    ([(1 : ℚ)/2, 1/2].length = 0 + 1 + [(1 : ℚ)/2].length) ∧
    poisson (fun _ => 1) 0 ((1 : ℚ)/2 :: []) = some (0, []) :=
  ⟨(c5_poisson_count (fun _ => 1)).1 0 [(1 : ℚ)/2, 1/2] 0 [(1 : ℚ)/2]
      (by norm_num [poisson, poissonAux]),
   (c5_poisson_count (fun _ => 1)).2 rfl ((1 : ℚ)/2) [] (by norm_num)
      (by norm_num)⟩


theorem runIteration_eq (expNeg : ℚ → ℚ)
    (homeExpG awayExpG homeExpC awayExpC : ℚ) (isTeamYHome : Bool)
    (draws : List ℚ) :
    runIteration expNeg homeExpG awayExpG homeExpC awayExpC isTeamYHome
        draws =
      (sampleIteration expNeg homeExpG awayExpG homeExpC awayExpC
          draws).map
        fun (s, d) => (specSuccess s isTeamYHome, d) := by
  simp only [runIteration, sampleIteration, specSuccess, Option.map_bind,
    Function.comp, Option.map_some', mul_comm]

theorem simulateLoop_eq (expNeg : ℚ → ℚ)
    (homeExpG awayExpG homeExpC awayExpC : ℚ) (isTeamYHome : Bool) :
    ∀ (n successCount : ℕ) (draws : List ℚ),
      simulateLoop expNeg homeExpG awayExpG homeExpC awayExpC isTeamYHome
          n successCount draws =
        (specOutcomes expNeg homeExpG awayExpG homeExpC awayExpC n
            draws).map
          fun (l, d) =>
            (successCount + (l.countP fun s => specSuccess s isTeamYHome),
              d) := by
  intro n
  induction n with
  | zero => intro c draws; simp [simulateLoop, specOutcomes]
  | succ n ih =>
    intro c draws
    simp only [simulateLoop, specOutcomes, runIteration_eq, Option.map_bind,
      Function.comp]
    cases hs : sampleIteration expNeg homeExpG awayExpG homeExpC awayExpC
        draws with
    | none => simp
    | some x =>
      obtain ⟨s, d⟩ := x
      simp only [Option.map_some', Option.some_bind]
      rw [ih]
      cases ho : specOutcomes expNeg homeExpG awayExpG homeExpC awayExpC n
          d with
      | none => simp
      | some y =>
        obtain ⟨l, d2⟩ := y
        simp only [Option.map_some', List.countP_cons]
        cases hsc : specSuccess s isTeamYHome <;> simp [hsc] <;> omega

/-- Claim C1: for every parameter set, designated-team side, and
iteration count, `simulateMatch` coincides with the claim description `simulateSpecFn`: per iteration it performs four
independent Poisson draws of half goals at first-half rate 0.45 times
and second-half rate 0.55 times the full-match expected goals of each side,
draws a corner total as the sum of two independent Poisson draws at the full-match expected corners of
each side, counts the iteration a
success exactly when the four stated strict conditions hold, and after
all iterations returns successCount / iterations; the default
iteration count is 20,000. -/
theorem c1_simulate_refines_spec (expNeg : ℚ → ℚ)
    (homeExpG awayExpG homeExpC awayExpC : ℚ) (isTeamYHome : Bool)
    (iterations : ℕ) (draws : List ℚ) :
    simulateMatch expNeg homeExpG awayExpG homeExpC awayExpC isTeamYHome
        iterations draws =
      simulateSpecFn expNeg homeExpG awayExpG homeExpC awayExpC
        isTeamYHome iterations draws ∧
    defaultIterations = 20000 := by
  refine ⟨?_, rfl⟩
  simp only [simulateMatch, simulateSpecFn, simulateLoop_eq]
  cases specOutcomes expNeg homeExpG awayExpG homeExpC awayExpC iterations
      draws with
  | none => simp
  | some y => obtain ⟨l, d⟩ := y; simp

theorem simulateLoop_le (expNeg : ℚ → ℚ)
    (homeExpG awayExpG homeExpC awayExpC : ℚ) (isTeamYHome : Bool) :
    ∀ (n c : ℕ) (draws : List ℚ) (res : ℕ × List ℚ),
      simulateLoop expNeg homeExpG awayExpG homeExpC awayExpC isTeamYHome
          n c draws = some res → res.1 ≤ c + n := by
  intro n
  induction n with
  | zero =>
    intro c draws res h
    simp only [simulateLoop, Option.some.injEq] at h
    subst h
    omega
  | succ n ih =>
    intro c draws res h
    simp only [simulateLoop] at h
    cases hr : runIteration expNeg homeExpG awayExpG homeExpC awayExpC
        isTeamYHome draws with
    | none => rw [hr] at h; simp at h
    | some x =>
      obtain ⟨success, d⟩ := x
      rw [hr] at h
      simp only [Option.some_bind] at h
      have := ih (if success then c + 1 else c) d res h
      cases success <;> simp at this <;> omega

/-- Claim C7: for every parameter set, every designated-team side, and
every positive iteration count, the probability returned by the
simulator lies in the closed interval [0,1]: the success counter never
exceeds the iteration count, and the returned value is their
quotient. -/
theorem c7_probability_bounds (expNeg : ℚ → ℚ)
    (homeExpG awayExpG homeExpC awayExpC : ℚ) (isTeamYHome : Bool)
    (iterations : ℕ) (draws : List ℚ) (p : ℚ) (rest : List ℚ)
    (hpos : 0 < iterations)
    (h : simulateMatch expNeg homeExpG awayExpG homeExpC awayExpC
        isTeamYHome iterations draws = some (p, rest)) :
    0 ≤ p ∧ p ≤ 1 := by
  simp only [simulateMatch] at h
  cases hl : simulateLoop expNeg homeExpG awayExpG homeExpC awayExpC
      isTeamYHome iterations 0 draws with
  | none => rw [hl] at h; simp at h
  | some res =>
    obtain ⟨successCount, d⟩ := res
    rw [hl] at h
    simp only [Option.map_some', Option.some.injEq, Prod.mk.injEq] at h
    obtain ⟨hp, _⟩ := h
    have hle : successCount ≤ iterations := by
      have := simulateLoop_le expNeg homeExpG awayExpG homeExpC awayExpC
        isTeamYHome iterations 0 draws (successCount, d) hl
      simpa using this
    have hiter : (0 : ℚ) < (iterations : ℚ) := by
      exact_mod_cast hpos
    constructor
    · rw [← hp]
      exact div_nonneg (by positivity) (le_of_lt hiter)
    · rw [← hp]
      rw [div_le_one hiter]
      exact_mod_cast hle

/-- With a non-negative threshold function, a run of one iteration on
six zero draws: every Poisson call consumes one zero draw and returns
0, no goals and no corners are scored, and the iteration is not a
success (the designated team wins no half and the corner total is not
over 5.5). -/
theorem runIteration_zeros (expNeg : ℚ → ℚ) (h : ∀ x, 0 ≤ expNeg x)
    (homeExpG awayExpG homeExpC awayExpC : ℚ) (isTeamYHome : Bool)
    (rest : List ℚ) :
    runIteration expNeg homeExpG awayExpG homeExpC awayExpC isTeamYHome
        ((0 : ℚ) :: 0 :: 0 :: 0 :: 0 :: 0 :: rest) =
      some (false, rest) := by
  have h0 : ∀ (lam : ℚ) (us : List ℚ),
      poisson expNeg lam ((0 : ℚ) :: us) = some (0, us) :=
    fun lam us => poisson_zero_draw expNeg lam (h lam) us
  simp only [runIteration, h0, Option.some_bind]
  cases isTeamYHome <;> norm_num

/-- Iterating `runIteration_zeros`: `n` iterations on `6 * n` zero
draws leave the success counter untouched. -/
theorem simulateLoop_zeros (expNeg : ℚ → ℚ) (h : ∀ x, 0 ≤ expNeg x)
    (homeExpG awayExpG homeExpC awayExpC : ℚ) (isTeamYHome : Bool) :
    ∀ (n c : ℕ) (rest : List ℚ),
      simulateLoop expNeg homeExpG awayExpG homeExpC awayExpC isTeamYHome
          n c (List.replicate (6 * n) (0 : ℚ) ++ rest) = some (c, rest) := by
  intro n
  induction n with
  | zero => intro c rest; simp [simulateLoop]
  | succ n ih =>
    intro c rest
    have hsplit : List.replicate (6 * (n + 1)) (0 : ℚ) ++ rest =
        (0 : ℚ) :: 0 :: 0 :: 0 :: 0 :: 0 ::
          (List.replicate (6 * n) (0 : ℚ) ++ rest) := by
      rw [show 6 * (n + 1) = 6 + 6 * n by ring, List.replicate_add]
      simp [List.replicate_succ]
    rw [hsplit]
    simp only [simulateLoop,
      runIteration_zeros expNeg h homeExpG awayExpG homeExpC awayExpC
        isTeamYHome, Option.some_bind, Bool.false_eq_true, if_neg,
      not_false_iff]
    exact ih c rest

/-- A full simulator run on all-zero draws reports probability 0. -/
theorem simulateMatch_zeros (expNeg : ℚ → ℚ) (h : ∀ x, 0 ≤ expNeg x)
    (homeExpG awayExpG homeExpC awayExpC : ℚ) (isTeamYHome : Bool)
    (n : ℕ) (rest : List ℚ) :
    simulateMatch expNeg homeExpG awayExpG homeExpC awayExpC isTeamYHome
        n (List.replicate (6 * n) (0 : ℚ) ++ rest) = some (0, rest) := by
  simp [simulateMatch,
    simulateLoop_zeros expNeg h homeExpG awayExpG homeExpC awayExpC
      isTeamYHome n 0 rest]

/-- Concrete instance of C7: the one-iteration run on six zero draws
returns probability 0, which is within [0,1]. -/
theorem c7_probability_bounds_witness : (0 : ℚ) ≤ 0 ∧ (0 : ℚ) ≤ 1 :=
  c7_probability_bounds (fun _ => 1/2) 1 1 1 1 true 1
    (List.replicate 6 (0 : ℚ)) 0 [] (by norm_num)
    (by
      have := simulateMatch_zeros (fun _ => (1 : ℚ)/2)
        (fun x => by norm_num) 1 1 1 1 true 1 []
      simpa using this)

/-- The simulator never reports a negative probability: the result is
a quotient of two natural-number casts. -/
theorem simulateMatch_nonneg (expNeg : ℚ → ℚ)
    (homeExpG awayExpG homeExpC awayExpC : ℚ) (isTeamYHome : Bool)
    (iterations : ℕ) (draws : List ℚ) (p : ℚ) (rest : List ℚ)
    (h : simulateMatch expNeg homeExpG awayExpG homeExpC awayExpC
        isTeamYHome iterations draws = some (p, rest)) :
    0 ≤ p := by
  simp only [simulateMatch] at h
  cases hl : simulateLoop expNeg homeExpG awayExpG homeExpC awayExpC
      isTeamYHome iterations 0 draws with
  | none => rw [hl] at h; simp at h
  | some res =>
    obtain ⟨successCount, d⟩ := res
    rw [hl] at h
    simp only [Option.map_some', Option.some.injEq, Prod.mk.injEq] at h
    obtain ⟨hp, _⟩ := h
    rw [← hp]
    positivity

/-- A full handler analysis on all-zero draws: both simulator runs
report probability 0, the home side is picked (0 ≥ 0 holds), and the
value fields are derived from probability 0. -/
theorem analyzeMatch_zeros (expNeg : ℚ → ℚ) (h : ∀ x, 0 ≤ expNeg x)
    (homeExpG awayExpG homeExpC awayExpC : ℚ) :
    analyzeMatch expNeg homeExpG awayExpG homeExpC awayExpC
        (List.replicate (12 * defaultIterations) (0 : ℚ)) =
      some (deriveValue 0 true) := by
  have hsplit : List.replicate (12 * defaultIterations) (0 : ℚ) =
      List.replicate (6 * defaultIterations) (0 : ℚ) ++
        (List.replicate (6 * defaultIterations) (0 : ℚ) ++ []) := by
    rw [List.append_nil, ← List.replicate_add]
    ring_nf
  rw [hsplit]
  simp only [analyzeMatch,
    simulateMatch_zeros expNeg h homeExpG awayExpG homeExpC awayExpC true
      defaultIterations,
    Option.some_bind]
  rw [simulateMatch_zeros expNeg h homeExpG awayExpG homeExpC awayExpC
    false defaultIterations []]
  simp only [Option.some_bind, ge_iff_le, le_refl, decide_True, if_pos]

/-- Whatever the analysis returns came from two successive simulator
runs whose better probability (ties to home) fed the value
derivation. -/
theorem analyzeMatch_destruct (expNeg : ℚ → ℚ)
    (homeExpG awayExpG homeExpC awayExpC : ℚ) (draws : List ℚ)
    (a : Assessment)
    (h : analyzeMatch expNeg homeExpG awayExpG homeExpC awayExpC draws =
      some a) :
    ∃ (probHomeY : ℚ) (d1 : List ℚ) (probAwayY : ℚ) (d2 : List ℚ),
      simulateMatch expNeg homeExpG awayExpG homeExpC awayExpC true
          defaultIterations draws = some (probHomeY, d1) ∧
      simulateMatch expNeg homeExpG awayExpG homeExpC awayExpC false
          defaultIterations d1 = some (probAwayY, d2) ∧
      a = deriveValue
            (if decide (probHomeY ≥ probAwayY) then probHomeY
             else probAwayY)
            (decide (probHomeY ≥ probAwayY)) := by
  simp only [analyzeMatch] at h
  cases h1 : simulateMatch expNeg homeExpG awayExpG homeExpC awayExpC true
      defaultIterations draws with
  | none => rw [h1] at h; simp at h
  | some x =>
    obtain ⟨pH, d1⟩ := x
    rw [h1] at h
    simp only [Option.some_bind] at h
    cases h2 : simulateMatch expNeg homeExpG awayExpG homeExpC awayExpC
        false defaultIterations d1 with
    | none => rw [h2] at h; simp at h
    | some y =>
      obtain ⟨pA, d2⟩ := y
      rw [h2] at h
      simp only [Option.some_bind, Option.some.injEq] at h
      exact ⟨pH, d1, pA, d2, rfl, h2, h.symm⟩

/-- Counterexample to claim C2: with every expected-goal and
expected-corner input set to the invalid value −1, the analysis does
not fail fast — it runs the simulator to completion and returns an
assessment; no InvalidParameterError (or any error) exists in the
code. -/
theorem c2_counterexample :
    analyzeMatch (fun _ => 1/2) (-1) (-1) (-1) (-1)
        (List.replicate (12 * defaultIterations) (0 : ℚ)) =
      some (deriveValue 0 true) :=
  analyzeMatch_zeros (fun _ => 1/2) (fun x => by norm_num)
    (-1) (-1) (-1) (-1)

/-- Claim C2 amended: the implemented evaluator performs no input
validation and raises no errors: for every expected-rate inputs,
non-positive ones included, it runs the simulator and produces an
assessment (given draws for both runs), and the market odds are
synthesized from the model probability rather than supplied and
validated. -/
theorem c2_no_validation (expNeg : ℚ → ℚ) (h : ∀ x, 0 ≤ expNeg x)
    (homeExpG awayExpG homeExpC awayExpC : ℚ) :
    (analyzeMatch expNeg homeExpG awayExpG homeExpC awayExpC
        (List.replicate (12 * defaultIterations) (0 : ℚ))).isSome =
      true ∧
    ∀ (p : ℚ) (b : Bool),
      (deriveValue p b).bestOdd = 1 / (p * 0.8) * 1.1 := by
  constructor
  · rw [analyzeMatch_zeros expNeg h homeExpG awayExpG homeExpC awayExpC]
    rfl
  · intro p b
    rfl

/-- Concrete instance of the amended C2: at the invalid rates −1 the
analysis still returns an assessment, and the best odd is synthesized
from the model probability. -/
theorem c2_no_validation_witness :
    (analyzeMatch (fun _ => 1/2) (-1) (-1) (-1) (-1)
        (List.replicate (12 * defaultIterations) (0 : ℚ))).isSome =
      true ∧
    (deriveValue (1/2) true).bestOdd = 1 / ((1/2 : ℚ) * 0.8) * 1.1 :=
  ⟨(c2_no_validation (fun _ => 1/2) (fun x => by norm_num)
      (-1) (-1) (-1) (-1)).1,
   (c2_no_validation (fun _ => 1/2) (fun x => by norm_num)
      (-1) (-1) (-1) (-1)).2 (1/2) true⟩

/-- Claim C3: the evaluator runs the simulator twice, once per
designated-team side, and the reported model probability and side are
those of the run with the higher probability; when the two
probabilities are equal the home side is selected (the comparison is
`probHomeY >= probAwayY`). -/
theorem c3_evaluator_selects_max (expNeg : ℚ → ℚ)
    (homeExpG awayExpG homeExpC awayExpC : ℚ) (draws : List ℚ)
    (a : Assessment)
    (h : analyzeMatch expNeg homeExpG awayExpG homeExpC awayExpC draws =
      some a) :
    ∃ (probHomeY : ℚ) (d1 : List ℚ) (probAwayY : ℚ) (d2 : List ℚ),
      simulateMatch expNeg homeExpG awayExpG homeExpC awayExpC true
          defaultIterations draws = some (probHomeY, d1) ∧
      simulateMatch expNeg homeExpG awayExpG homeExpC awayExpC false
          defaultIterations d1 = some (probAwayY, d2) ∧
      a.probModel = max probHomeY probAwayY ∧
      (a.isTeamYHome = true ↔ probAwayY ≤ probHomeY) ∧
      (probHomeY = probAwayY → a.isTeamYHome = true) := by
  obtain ⟨pH, d1, pA, d2, h1, h2, ha⟩ :=
    analyzeMatch_destruct expNeg homeExpG awayExpG homeExpC awayExpC
      draws a h
  subst ha
  refine ⟨pH, d1, pA, d2, h1, h2, ?_, ?_, ?_⟩
  · by_cases hc : pA ≤ pH
    · simp [deriveValue, ge_iff_le, hc, max_eq_left hc]
    · have hlt : pH < pA := not_le.1 hc
      simp [deriveValue, ge_iff_le, hc, max_eq_right (le_of_lt hlt)]
  · by_cases hc : pA ≤ pH <;> simp [deriveValue, ge_iff_le, hc]
  · intro he
    simp [deriveValue, ge_iff_le, he.ge]

/-- Concrete instance of C3: on the all-zero draw list the two runs
tie at probability 0 and the home side is selected. -/
theorem c3_evaluator_selects_max_witness :
    ∃ (probHomeY : ℚ) (d1 : List ℚ) (probAwayY : ℚ) (d2 : List ℚ),
      simulateMatch (fun _ => 1/2) 1 1 1 1 true defaultIterations
          (List.replicate (12 * defaultIterations) (0 : ℚ)) =
        some (probHomeY, d1) ∧
      simulateMatch (fun _ => 1/2) 1 1 1 1 false defaultIterations d1 =
        some (probAwayY, d2) ∧
      (deriveValue 0 true).probModel = max probHomeY probAwayY ∧
      ((deriveValue 0 true).isTeamYHome = true ↔ probAwayY ≤ probHomeY) ∧
      (probHomeY = probAwayY → (deriveValue 0 true).isTeamYHome = true) :=
  c3_evaluator_selects_max (fun _ => 1/2) 1 1 1 1
    (List.replicate (12 * defaultIterations) (0 : ℚ))
    (deriveValue 0 true)
    (analyzeMatch_zeros (fun _ => 1/2) (fun x => by norm_num) 1 1 1 1)

/-- Claim C4: for every strictly positive model probability p, the
synthetic-odds derivation (oddAvg = 1/(p·0.8), bestOdd = oddAvg·1.1)
makes the expected value identically 1.1/0.8 − 1 = 0.375, independent
of p, and makes the edge p·(1 − 0.8/1.1) > 0; consequently such an
assessment passes the ev > 0 filter predicate. -/
theorem c4_synthetic_ev_constant (p : ℚ) (b : Bool) (hp : 0 < p) :
    (deriveValue p b).ev = 1.1 / 0.8 - 1 ∧
    ((1.1 : ℚ) / 0.8 - 1 = 0.375) ∧
    (deriveValue p b).edge = p * (1 - 0.8 / 1.1) ∧
    0 < (deriveValue p b).edge ∧
    decide ((deriveValue p b).ev > 0) = true := by
  have hp0 : p ≠ 0 := ne_of_gt hp
  have hev : (deriveValue p b).ev = 1.1 / 0.8 - 1 := by
    show p * (1 / (p * 0.8) * 1.1) - 1 = 1.1 / 0.8 - 1
    field_simp
    ring
  have hedge : (deriveValue p b).edge = p * (1 - 0.8 / 1.1) := by
    show p - 1 / (1 / (p * 0.8) * 1.1) = p * (1 - 0.8 / 1.1)
    field_simp
    ring
  refine ⟨hev, by norm_num, hedge, ?_, ?_⟩
  · rw [hedge]
    have h11 : (0 : ℚ) < 1 - 0.8 / 1.1 := by norm_num
    exact mul_pos hp h11
  · rw [decide_eq_true_eq, gt_iff_lt, hev]
    norm_num

/-- Concrete instance of C4 at p = 1/2. -/
theorem c4_synthetic_ev_constant_witness :
    (deriveValue (1/2) true).ev = 1.1 / 0.8 - 1 ∧
    ((1.1 : ℚ) / 0.8 - 1 = 0.375) ∧
    (deriveValue (1/2) true).edge = (1/2 : ℚ) * (1 - 0.8 / 1.1) ∧
    0 < (deriveValue (1/2) true).edge ∧
    decide ((deriveValue (1/2) true).ev > 0) = true :=
  c4_synthetic_ev_constant (1/2) true (by norm_num)

/-- Claim C8: in the value derivation, implied probability equals
1/marketOdds, edge equals modelProbability − impliedProbability, and
expected value equals modelProbability·marketOdds − 1, where the
market odds used are the best odd. -/
theorem c8_edge_ev_formulas (p : ℚ) (b : Bool) :
    (deriveValue p b).probModel = p ∧
    (deriveValue p b).probImplied = 1 / (deriveValue p b).bestOdd ∧
    (deriveValue p b).edge =
      (deriveValue p b).probModel - (deriveValue p b).probImplied ∧
    (deriveValue p b).ev =
      (deriveValue p b).probModel * (deriveValue p b).bestOdd - 1 :=
  ⟨rfl, rfl, rfl, rfl⟩

/-- Counterexample to claim C9: an analysis outcome with model
probability 0 is reachable (no iteration of either simulator run
succeeds on all-zero draws), and there the divisor probModel · 0.8 of
the synthetic average-odds computation is 0, not nonzero. -/
theorem c9_counterexample :
    analyzeMatch (fun _ => 1/2) 1 1 1 1
        (List.replicate (12 * defaultIterations) (0 : ℚ)) =
      some (deriveValue 0 true) ∧
    (deriveValue 0 true).probModel * (0.8 : ℚ) = 0 :=
  ⟨analyzeMatch_zeros (fun _ => 1/2) (fun x => by norm_num) 1 1 1 1,
   by norm_num [deriveValue]⟩

/-- Claim C9 amended: for every reachable analysis outcome the model
probability is non-negative, and the divisor probModel · 0.8 of the
synthetic average-odds computation is nonzero unless the model
probability is exactly 0 — which is reachable when no iteration
succeeds, so the unconditional nonzero claim fails there. -/
theorem c9_divisor (expNeg : ℚ → ℚ)
    (homeExpG awayExpG homeExpC awayExpC : ℚ) (draws : List ℚ)
    (a : Assessment)
    (h : analyzeMatch expNeg homeExpG awayExpG homeExpC awayExpC draws =
      some a) :
    0 ≤ a.probModel ∧
    (a.probModel = 0 ∨ a.probModel * (0.8 : ℚ) ≠ 0) := by
  obtain ⟨pH, d1, pA, d2, h1, h2, ha⟩ :=
    analyzeMatch_destruct expNeg homeExpG awayExpG homeExpC awayExpC
      draws a h
  have hH : 0 ≤ pH :=
    simulateMatch_nonneg expNeg homeExpG awayExpG homeExpC awayExpC true
      defaultIterations draws pH d1 h1
  have hA : 0 ≤ pA :=
    simulateMatch_nonneg expNeg homeExpG awayExpG homeExpC awayExpC false
      defaultIterations d1 pA d2 h2
  have hpm : 0 ≤ a.probModel := by
    subst ha
    by_cases hc : pA ≤ pH <;> simp [deriveValue, ge_iff_le, hc, hH, hA]
  refine ⟨hpm, ?_⟩
  rcases eq_or_lt_of_le hpm with heq | hlt
  · exact Or.inl heq.symm
  · exact Or.inr (mul_ne_zero (ne_of_gt hlt) (by norm_num))

/-- Concrete instance of the amended C9 at the reachable probability-0
outcome. -/
theorem c9_divisor_witness :
    0 ≤ (deriveValue 0 true).probModel ∧
    ((deriveValue 0 true).probModel = 0 ∨
      (deriveValue 0 true).probModel * (0.8 : ℚ) ≠ 0) :=
  c9_divisor (fun _ => 1/2) 1 1 1 1
    (List.replicate (12 * defaultIterations) (0 : ℚ))
    (deriveValue 0 true)
    (analyzeMatch_zeros (fun _ => 1/2) (fun x => by norm_num) 1 1 1 1)

/-- Claim C10: given any collection of assessments, the
ranking/filtering step keeps exactly the entries whose expected value
is strictly greater than 0 and then truncates the result to at most 50
entries, preserving the order of the input collection: it equals the
truncated filter, every kept entry has positive ev, at most 50 entries
are kept, the result is an order-preserving sublist of the input, and
when at most 50 entries pass the filter the result is exactly the
filtered collection. -/
theorem c10_rank_filter (l : List Assessment) :
    rankFilter l = (l.filter fun m => decide (m.ev > 0)).take 50 ∧
    (∀ x, x ∈ rankFilter l → 0 < x.ev) ∧
    (rankFilter l).length ≤ 50 ∧
    (rankFilter l).Sublist l ∧
    ((l.filter fun m => decide (m.ev > 0)).length ≤ 50 →
      rankFilter l = l.filter fun m => decide (m.ev > 0)) := by
  refine ⟨rfl, ?_, ?_, ?_, ?_⟩
  · intro x hx
    have hx2 : x ∈ l.filter fun m => decide (m.ev > 0) :=
      List.take_subset _ _ hx
    have := List.of_mem_filter hx2
    simpa using this
  · calc (rankFilter l).length
        = min 50 (l.filter fun m => decide (m.ev > 0)).length := by
          simp [rankFilter, List.length_take]
      _ ≤ 50 := min_le_left _ _
  · exact (List.take_sublist _ _).trans (List.filter_sublist _)
  · intro hlen
    simp only [rankFilter]
    exact List.take_of_length_le hlen

/-- Concrete instance of C10 on the test vector of the spec of five
assessments with expected values 0.3, −0.1, 0.05, 0 and 0.4: the
filter keeps exactly the three positive-ev entries in input order. -/
theorem c10_rank_filter_witness :
    rankFilter
        [⟨0, 0, 0, 0, 0, 0.3, false, true⟩,
         ⟨0, 0, 0, 0, 0, -0.1, false, true⟩,
         ⟨0, 0, 0, 0, 0, 0.05, false, true⟩,
         ⟨0, 0, 0, 0, 0, 0, false, true⟩,
         ⟨0, 0, 0, 0, 0, 0.4, false, true⟩] =
      List.filter (fun m => decide (m.ev > 0))
        [⟨0, 0, 0, 0, 0, 0.3, false, true⟩,
         ⟨0, 0, 0, 0, 0, -0.1, false, true⟩,
         ⟨0, 0, 0, 0, 0, 0.05, false, true⟩,
         ⟨0, 0, 0, 0, 0, 0, false, true⟩,
         ⟨0, 0, 0, 0, 0, 0.4, false, true⟩] ∧
    rankFilter
        [⟨0, 0, 0, 0, 0, 0.3, false, true⟩,
         ⟨0, 0, 0, 0, 0, -0.1, false, true⟩,
         ⟨0, 0, 0, 0, 0, 0.05, false, true⟩,
         ⟨0, 0, 0, 0, 0, 0, false, true⟩,
         ⟨0, 0, 0, 0, 0, 0.4, false, true⟩] =
      [⟨0, 0, 0, 0, 0, 0.3, false, true⟩,
       ⟨0, 0, 0, 0, 0, 0.05, false, true⟩,
       ⟨0, 0, 0, 0, 0, 0.4, false, true⟩] :=
  ⟨(c10_rank_filter _).2.2.2.2
      (by norm_num [List.filter_cons]),
   by norm_num [rankFilter, List.filter_cons, List.take]⟩
